import Mathlib

/-!
Shallow embedding of the recordio framing library (src/recordio.h,
src/recordio.cc, namespace `file`).

The library writes frames of the shape

  magic : int32 (the constant kMagicNumber = 0x3ed7230a)
  length : size_t (native word width; we model a 64-bit little-endian host)
  payload : byte[length]

to an `std::ofstream` and reads them back from an `std::ifstream`.

Modelling choices:
* Bytes are `Nat` (real streams hold values 0..255; no claim depends on
  the bound).  Multi-byte integers are laid out little-endian, 4 bytes
  for `int` and 8 bytes for `size_t`, matching a 64-bit little-endian
  host, the configuration the repository builds for.
* An `std::ofstream` is `Ofstream`: the bytes written so far, the sticky
  fail bit, and an oracle `writeOk` saying whether the n-th `write` call
  on this stream succeeds (a failed `write` sets the fail bit and appends
  nothing; a `write` on an already-failed stream is a no-op, as the
  sentry of a failed C++ stream rejects the operation).
* An `std::ifstream` is `Ifstream`: the bytes not yet consumed plus the
  sticky fail bit.  `read n` extracts `n` bytes when available; a short
  read extracts what is there and sets the fail bit, exactly the C++
  `read`/`fail()` behaviour the reader relies on.
* `new char[]` / `delete[]` in `RecordReader::ReadRecord` are tracked by
  ghost counters `allocated`/`freed` in the result; a buffer handed to
  the caller counts as allocated and not freed (ownership transferred).
* The raw `ReadRecord(const char**, size_t*)` out-parameter `*buffer` is
  an `Option (List Nat)`: `none` is the null pointer it is initialised
  to, `some data` the allocation handed over on success.
-/

namespace file

/-- Little-endian byte image of `n` truncated to `w` bytes, as
`reinterpret_cast<const char*>(&n)` exposes it on the modelled host. -/
def natToBytesLE : Nat → Nat → List Nat
  | 0, _ => []
  | w + 1, n => n % 256 :: natToBytesLE w (n / 256)

/-- Value of a little-endian byte list, the inverse reinterpretation
performed when the reader loads `magic_number` or `read_len`. -/
def bytesToNatLE : List Nat → Nat
  | [] => 0
  | b :: bs => b + 256 * bytesToNatLE bs

/-- Model of the `std::ofstream*` sink owned by `RecordWriter`. -/
structure Ofstream where
  bytes : List Nat
  failed : Bool
  writeOk : Nat → Bool
  calls : Nat

/-- `file_->write(buf, n)`: appends on success, sets the sticky fail bit
when the sink reports a failure, does nothing on an already-failed
stream. -/
def Ofstream.write (f : Ofstream) (data : List Nat) : Ofstream :=
  if f.failed then { f with calls := f.calls + 1 }
  else if f.writeOk f.calls then
    { f with bytes := f.bytes ++ data, calls := f.calls + 1 }
  else
    { f with failed := true, calls := f.calls + 1 }

/-- `file_->close()` on an ofstream: a failing close sets the fail bit;
a successful close leaves the fail bit as it was.  `closeOk` says
whether the underlying close succeeds. -/
def Ofstream.close (f : Ofstream) (closeOk : Bool) : Ofstream :=
  { f with failed := f.failed || !closeOk }

/-- Model of the `std::ifstream*` source owned by `RecordReader`. -/
structure Ifstream where
  rest : List Nat
  failed : Bool
deriving DecidableEq

/-- `file_->read(buf, n)`: returns the extracted bytes and the stream
after the call.  A short read extracts everything available and sets
the fail bit; a read on a failed stream extracts nothing. -/
def Ifstream.read (f : Ifstream) (n : Nat) : List Nat × Ifstream :=
  if f.failed then ([], f)
  else if f.rest.length < n then (f.rest, ⟨[], true⟩)
  else (f.rest.take n, ⟨f.rest.drop n, false⟩)

/-- `file_->close()` on an ifstream, as in `Ofstream.close`. -/
def Ifstream.close (f : Ifstream) (closeOk : Bool) : Ifstream :=
  ⟨f.rest, f.failed || !closeOk⟩

namespace RecordWriter

/-- `const int RecordWriter::kMagicNumber = 0x3ed7230a;` -/
def kMagicNumber : Nat := 0x3ed7230a

/-- The 4 bytes `file_->write(reinterpret_cast<const char*>(&kMagicNumber),
sizeof(kMagicNumber))` emits: `sizeof(int) = 4`. -/
def magicBytes : List Nat := natToBytesLE 4 kMagicNumber

/-- The 8 bytes a `size_t` value occupies on the modelled host. -/
def sizeTBytes (n : Nat) : List Nat := natToBytesLE 8 n

/-- `bool RecordWriter::WriteRecord(const char* buffer, size_t len)`:
three writes (magic, length, payload), then `return !file_->fail();`.
`payload` stands for the `len` bytes starting at `buffer`. -/
def WriteRecord (f : Ofstream) (payload : List Nat) : Bool × Ofstream :=
  let f1 := f.write magicBytes
  let f2 := f1.write (sizeTBytes payload.length)
  let f3 := f2.write payload
  (!f3.failed, f3)

/-- `template <typename T> bool RecordWriter::Write(const T& t)`:
writes the raw byte image of `t`, with `len = sizeof(T)`.  `tbytes`
is that byte image. -/
def Write (f : Ofstream) (tbytes : List Nat) : Bool × Ofstream :=
  WriteRecord f tbytes

/-- `bool RecordWriter::Close()`: `file_->close(); return file_->fail();` -/
def Close (f : Ofstream) (closeOk : Bool) : Bool × Ofstream :=
  let f2 := f.close closeOk
  (f2.failed, f2)

end RecordWriter

/-- Result of `RecordReader::ReadRecord(const char** buffer, size_t* len)`:
the returned bool, the out-parameter `*buffer` (`none` = the null pointer
it is initialised to), the stream afterwards, and ghost counters for the
`new char[*len]` / `delete[]` pair. -/
structure ReadResult where
  ok : Bool
  buffer : Option (List Nat)
  after : Ifstream
  allocated : Nat
  freed : Nat
deriving DecidableEq

namespace RecordReader

/-- `bool RecordReader::ReadRecord(const char** buffer, size_t* len)`:
read 4 bytes of magic, fail on stream failure or mismatch; read the
8-byte length, fail on stream failure; allocate `len` bytes and read
them, releasing the allocation and failing on a short read; otherwise
hand the allocation to the caller. -/
def ReadRecord (f : Ifstream) : ReadResult :=
  let m := f.read 4
  if m.2.failed ∨ m.1 ≠ RecordWriter.magicBytes then ⟨false, none, m.2, 0, 0⟩
  else
    let l := m.2.read 8
    if l.2.failed then ⟨false, none, l.2, 0, 0⟩
    else
      let d := l.2.read (bytesToNatLE l.1)
      if d.2.failed then ⟨false, none, d.2, 1, 1⟩
      else ⟨true, some d.1, d.2, 1, 0⟩

/-- `bool RecordReader::ReadRecord(std::string* data)`: delegates to the
raw overload; on success assigns the buffer to `data` and releases it,
on failure leaves `data` (second component) untouched. -/
def ReadRecordString (f : Ifstream) (data : List Nat) :
    Bool × List Nat × Ifstream :=
  let r := ReadRecord f
  match r.buffer with
  | none => (false, data, r.after)
  | some p => (true, p, r.after)

/-- `bool RecordReader::ReadRecordSized(char* buffer, size_t len)`:
magic check as in `ReadRecord`, then the length field must equal `len`
exactly, then `len` bytes are read directly into the caller's storage
`store` (a short final read fills only a prefix of it). -/
def ReadRecordSized (f : Ifstream) (store : List Nat) (len : Nat) :
    Bool × List Nat × Ifstream :=
  let m := f.read 4
  if m.2.failed ∨ m.1 ≠ RecordWriter.magicBytes then (false, store, m.2)
  else
    let l := m.2.read 8
    if l.2.failed ∨ bytesToNatLE l.1 ≠ len then (false, store, l.2)
    else
      let d := l.2.read len
      (!d.2.failed, d.1 ++ store.drop d.1.length, d.2)

/-- `template <typename T> bool RecordReader::Read(T* t)`:
`ReadRecordSized(reinterpret_cast<char*>(t), sizeof(T))`; `store` is the
byte image of `*t`, whose length is `sizeof(T)`. -/
def Read (f : Ifstream) (store : List Nat) : Bool × List Nat × Ifstream :=
  ReadRecordSized f store store.length

/-- `bool RecordReader::Close()`: `file_->close(); return file_->fail();` -/
def Close (f : Ifstream) (closeOk : Bool) : Bool × Ifstream :=
  let f2 := f.close closeOk
  (f2.failed, f2)

end RecordReader

/-- The byte image of one frame carrying `payload`. -/
def frame (payload : List Nat) : List Nat :=
  RecordWriter.magicBytes ++ RecordWriter.sizeTBytes payload.length ++ payload

/-- Concatenated frames of a payload sequence. -/
def framesBytes (ps : List (List Nat)) : List Nat :=
  ps.foldr (fun p acc => frame p ++ acc) []

/-- One `WriteRecord` call per payload, in order. -/
def WriteAll (f : Ofstream) : List (List Nat) → Ofstream
  | [] => f
  | p :: ps => WriteAll (RecordWriter.WriteRecord f p).2 ps

/-- The out-parameter results of `k` successive raw `ReadRecord` calls. -/
def ReadMany (f : Ifstream) : Nat → List (Option (List Nat)) × Ifstream
  | 0 => ([], f)
  | k + 1 =>
    let r := RecordReader.ReadRecord f
    let rs := ReadMany r.after k
    (r.buffer :: rs.1, rs.2)

/-- A fresh, empty, never-failing sink: the `std::ofstream` right after a
successful open. -/
def freshSink : Ofstream := ⟨[], false, fun _ => true, 0⟩

/-- An ifstream positioned at the start of the given bytes. -/
def sourceOf (bs : List Nat) : Ifstream := ⟨bs, false⟩

end file

namespace file

theorem length_natToBytesLE (w n : Nat) : (natToBytesLE w n).length = w := by
  induction w generalizing n with
  | zero => rfl
  | succ w ih => simp [natToBytesLE, ih]

theorem bytesToNatLE_natToBytesLE (w n : Nat) :
    bytesToNatLE (natToBytesLE w n) = n % 256 ^ w := by
  induction w generalizing n with
  | zero => simp [natToBytesLE, bytesToNatLE, Nat.mod_one]
  | succ w ih =>
    rw [natToBytesLE, bytesToNatLE, ih, pow_succ', Nat.mod_mul]

theorem decode_sizeTBytes {n : Nat} (h : n < 2 ^ 64) :
    bytesToNatLE (RecordWriter.sizeTBytes n) = n := by
  have e : (256 : Nat) ^ 8 = 2 ^ 64 := by norm_num
  rw [RecordWriter.sizeTBytes, bytesToNatLE_natToBytesLE, e, Nat.mod_eq_of_lt h]

theorem read_exact (a b : List Nat) (n : Nat) (h : a.length = n) :
    Ifstream.read ⟨a ++ b, false⟩ n = (a, ⟨b, false⟩) := by
  subst h
  have hlt : ¬ ((a ++ b).length < a.length) := by
    simp only [List.length_append]
    omega
  simp [Ifstream.read, hlt, List.take_left, List.drop_left]

theorem read_short (l : List Nat) (n : Nat) (h : l.length < n) :
    Ifstream.read ⟨l, false⟩ n = (l, ⟨[], true⟩) := by
  simp [Ifstream.read, h]

theorem readRecord_frame (p t : List Nat) (h : p.length < 2 ^ 64) :
    RecordReader.ReadRecord ⟨frame p ++ t, false⟩ =
      ⟨true, some p, ⟨t, false⟩, 1, 0⟩ := by
  have h4 : RecordWriter.magicBytes.length = 4 := rfl
  have h8 : (RecordWriter.sizeTBytes p.length).length = 8 :=
    length_natToBytesLE _ _
  have e1 : frame p ++ t =
      RecordWriter.magicBytes ++
        (RecordWriter.sizeTBytes p.length ++ (p ++ t)) := by
    simp [frame, List.append_assoc]
  have r1 : Ifstream.read ⟨frame p ++ t, false⟩ 4 =
      (RecordWriter.magicBytes,
        ⟨RecordWriter.sizeTBytes p.length ++ (p ++ t), false⟩) := by
    rw [e1]
    exact read_exact _ _ _ h4
  have r2 : Ifstream.read
        ⟨RecordWriter.sizeTBytes p.length ++ (p ++ t), false⟩ 8 =
      (RecordWriter.sizeTBytes p.length, ⟨p ++ t, false⟩) :=
    read_exact _ _ _ h8
  have r3 : Ifstream.read ⟨p ++ t, false⟩ p.length = (p, ⟨t, false⟩) :=
    read_exact _ _ _ rfl
  simp [RecordReader.ReadRecord, r1, r2, decode_sizeTBytes h, r3]

theorem readRecordSized_frame (p t store : List Nat) (h : p.length < 2 ^ 64) :
    RecordReader.ReadRecordSized ⟨frame p ++ t, false⟩ store p.length =
      (true, p ++ store.drop p.length, ⟨t, false⟩) := by
  have h4 : RecordWriter.magicBytes.length = 4 := rfl
  have h8 : (RecordWriter.sizeTBytes p.length).length = 8 :=
    length_natToBytesLE _ _
  have e1 : frame p ++ t =
      RecordWriter.magicBytes ++
        (RecordWriter.sizeTBytes p.length ++ (p ++ t)) := by
    simp [frame, List.append_assoc]
  have r1 : Ifstream.read ⟨frame p ++ t, false⟩ 4 =
      (RecordWriter.magicBytes,
        ⟨RecordWriter.sizeTBytes p.length ++ (p ++ t), false⟩) := by
    rw [e1]
    exact read_exact _ _ _ h4
  have r2 : Ifstream.read
        ⟨RecordWriter.sizeTBytes p.length ++ (p ++ t), false⟩ 8 =
      (RecordWriter.sizeTBytes p.length, ⟨p ++ t, false⟩) :=
    read_exact _ _ _ h8
  have r3 : Ifstream.read ⟨p ++ t, false⟩ p.length = (p, ⟨t, false⟩) :=
    read_exact _ _ _ rfl
  simp [RecordReader.ReadRecordSized, r1, r2, decode_sizeTBytes h, r3]

theorem writeRecord_good (b : List Nat) (c : Nat) (p : List Nat) :
    RecordWriter.WriteRecord ⟨b, false, fun _ => true, c⟩ p =
      (true, ⟨b ++ frame p, false, fun _ => true, c + 3⟩) := by
  simp [RecordWriter.WriteRecord, Ofstream.write, frame, List.append_assoc]

theorem writeAll_good (ps : List (List Nat)) (b : List Nat) (c : Nat) :
    WriteAll ⟨b, false, fun _ => true, c⟩ ps =
      ⟨b ++ framesBytes ps, false, fun _ => true, c + 3 * ps.length⟩ := by
  induction ps generalizing b c with
  | nil => simp [WriteAll, framesBytes]
  | cons p ps ih =>
    rw [WriteAll, writeRecord_good, ih]
    simp [framesBytes, List.append_assoc]
    omega

theorem readRecord_nil :
    RecordReader.ReadRecord ⟨[], false⟩ = ⟨false, none, ⟨[], true⟩, 0, 0⟩ := by
  decide

theorem framesBytes_nil : framesBytes [] = [] := rfl

theorem framesBytes_cons (p : List Nat) (ps : List (List Nat)) :
    framesBytes (p :: ps) = frame p ++ framesBytes ps := rfl

theorem readMany_frames (ps : List (List Nat))
    (h : ∀ p ∈ ps, p.length < 2 ^ 64) :
    ReadMany ⟨framesBytes ps, false⟩ (ps.length + 1) =
      (ps.map some ++ [none], ⟨[], true⟩) := by
  induction ps with
  | nil => simp [ReadMany, framesBytes_nil, readRecord_nil]
  | cons p ps ih =>
    have hp : p.length < 2 ^ 64 := h p (by simp)
    have hps : ∀ q ∈ ps, q.length < 2 ^ 64 := fun q hq => h q (by simp [hq])
    have hframe := readRecord_frame p (framesBytes ps) hp
    have ih1 := congrArg Prod.fst (ih hps)
    have ih2 := congrArg Prod.snd (ih hps)
    simp only [ReadMany] at ih1 ih2
    rw [framesBytes_cons]
    simp [ReadMany, hframe, ih1, ih2]

end file

namespace file

/-- C1: writing byte payloads P1..Pn in order on a fresh stream and then
reading repeatedly yields exactly P1..Pn byte-for-byte and in order, with
the (n+1)-th read returning failure (no frame). -/
theorem c1_write_then_read_round_trip (ps : List (List Nat))
    (h : ∀ p ∈ ps, p.length < 2 ^ 64) :
    (ReadMany (sourceOf (WriteAll freshSink ps).bytes) (ps.length + 1)).1 =
      ps.map some ++ [none] := by
  have hw := writeAll_good ps [] 0
  rw [freshSink, hw]
  simp only [sourceOf, List.nil_append]
  rw [readMany_frames ps h]

/-- Witness for C1 at the spec's concrete scenario: payloads "ABC", "",
"DEFG". -/
theorem c1_write_then_read_round_trip_witness :
    (∀ p ∈ [[65, 66, 67], ([] : List Nat), [68, 69, 70, 71]],
        p.length < 2 ^ 64) ∧
    (ReadMany
        (sourceOf
          (WriteAll freshSink
            [[65, 66, 67], ([] : List Nat), [68, 69, 70, 71]]).bytes)
        ([[65, 66, 67], ([] : List Nat), [68, 69, 70, 71]].length + 1)).1 =
      [[65, 66, 67], ([] : List Nat), [68, 69, 70, 71]].map some ++ [none] :=
  ⟨by decide, c1_write_then_read_round_trip _ (by decide)⟩

/-- C2: writing the byte image of a fixed-size POD value and reading into a
same-sized destination succeeds and copies the value byte-for-byte. -/
theorem c2_fixed_size_round_trip (t store : List Nat)
    (h : t.length < 2 ^ 64) (hs : store.length = t.length) :
    (RecordWriter.Write freshSink t).1 = true ∧
    RecordReader.Read (sourceOf (RecordWriter.Write freshSink t).2.bytes)
        store = (true, t, ⟨[], false⟩) := by
  have hw := writeRecord_good [] 0 t
  have h1 : (RecordWriter.Write freshSink t).1 = true := by
    simp [RecordWriter.Write, freshSink, hw]
  have hb : (RecordWriter.Write freshSink t).2.bytes = frame t := by
    simp [RecordWriter.Write, freshSink, hw]
  refine ⟨h1, ?_⟩
  rw [hb]
  simp only [sourceOf, RecordReader.Read]
  rw [hs]
  have hr := readRecordSized_frame t [] store h
  rw [List.append_nil] at hr
  rw [hr, ← hs, List.drop_length, List.append_nil]

/-- Witness for C2 with the three-byte value 01 02 03. -/
theorem c2_fixed_size_round_trip_witness :
    ([1, 2, 3] : List Nat).length < 2 ^ 64 ∧
    ([9, 9, 9] : List Nat).length = ([1, 2, 3] : List Nat).length ∧
    ((RecordWriter.Write freshSink [1, 2, 3]).1 = true ∧
      RecordReader.Read
          (sourceOf (RecordWriter.Write freshSink [1, 2, 3]).2.bytes)
          [9, 9, 9] = (true, [1, 2, 3], ⟨[], false⟩)) :=
  ⟨by decide, by decide,
    c2_fixed_size_round_trip [1, 2, 3] [9, 9, 9] (by decide) (by decide)⟩

/-- C9: on the empty stream the very first ReadRecord returns failure with
no payload, no allocation, and only the fail bit as a side effect. -/
theorem c9_empty_stream_no_frame :
    RecordReader.ReadRecord (sourceOf []) =
      ⟨false, none, ⟨[], true⟩, 0, 0⟩ := by
  decide

end file

namespace file

/-- C3: a successful WriteRecord appends to the sink exactly the 4-byte
magic sentinel 0x3ed7230a, the length as an 8-byte native-width unsigned
integer, and the payload bytes, in that order with no padding. -/
theorem c3_frame_layout (f : Ofstream) (p : List Nat)
    (hf : f.failed = false)
    (hok : (RecordWriter.WriteRecord f p).1 = true) :
    (RecordWriter.WriteRecord f p).2.bytes =
      f.bytes ++ natToBytesLE 4 RecordWriter.kMagicNumber ++
        natToBytesLE 8 p.length ++ p ∧
    RecordWriter.kMagicNumber = 0x3ed7230a := by
  rcases f with ⟨b, fl, o, c⟩
  simp only at hf
  subst hf
  by_cases h1 : o c <;> by_cases h2 : o (c + 1) <;> by_cases h3 : o (c + 2) <;>
    simp [RecordWriter.WriteRecord, Ofstream.write, RecordWriter.magicBytes,
      RecordWriter.sizeTBytes, RecordWriter.kMagicNumber, h1, h2, h3,
      List.append_assoc] at hok ⊢

/-- Witness for C3: a one-byte record on a fresh sink. -/
theorem c3_frame_layout_witness :
    freshSink.failed = false ∧
    (RecordWriter.WriteRecord freshSink [65]).1 = true ∧
    ((RecordWriter.WriteRecord freshSink [65]).2.bytes =
        freshSink.bytes ++ natToBytesLE 4 RecordWriter.kMagicNumber ++
          natToBytesLE 8 ([65] : List Nat).length ++ [65] ∧
      RecordWriter.kMagicNumber = 0x3ed7230a) :=
  ⟨rfl, by decide, c3_frame_layout freshSink [65] rfl (by decide)⟩

/-- C4: a frame with payload length L read through the fixed-size path
expecting M bytes with M different from L fails despite the valid magic
value, and nothing is read into the caller's storage. -/
theorem c4_size_mismatch_rejected (p u store : List Nat) (m : Nat)
    (h : p.length < 2 ^ 64) (hm : m ≠ p.length) :
    RecordReader.ReadRecordSized ⟨frame p ++ u, false⟩ store m =
      (false, store, ⟨p ++ u, false⟩) := by
  have e1 : frame p ++ u =
      RecordWriter.magicBytes ++
        (RecordWriter.sizeTBytes p.length ++ (p ++ u)) := by
    simp [frame, List.append_assoc]
  rw [e1]
  have r1 := read_exact RecordWriter.magicBytes
    (RecordWriter.sizeTBytes p.length ++ (p ++ u)) 4 rfl
  have r2 := read_exact (RecordWriter.sizeTBytes p.length) (p ++ u) 8
    (length_natToBytesLE _ _)
  have hm' : p.length ≠ m := Ne.symm hm
  simp [RecordReader.ReadRecordSized, r1, r2, decode_sizeTBytes h, hm']

/-- Witness for C4: a 3-byte frame read expecting 4 bytes. -/
theorem c4_size_mismatch_rejected_witness :
    ([1, 2, 3] : List Nat).length < 2 ^ 64 ∧ (4 : Nat) ≠ ([1, 2, 3] : List Nat).length ∧
    RecordReader.ReadRecordSized ⟨frame [1, 2, 3] ++ [], false⟩ [9, 9, 9, 9] 4 =
      (false, [9, 9, 9, 9], ⟨[1, 2, 3] ++ [], false⟩) :=
  ⟨by decide, by decide,
    c4_size_mismatch_rejected [1, 2, 3] [] [9, 9, 9, 9] 4 (by decide) (by decide)⟩

/-- C5: when the first four bytes of the stream are not the magic sentinel,
the first ReadRecord fails, returns a null buffer, allocates nothing, and
consumes no bytes beyond the four-byte magic check. -/
theorem c5_sentinel_rejection (f : Ifstream) (hf : f.failed = false)
    (h : f.rest.take 4 ≠ RecordWriter.magicBytes) :
    (RecordReader.ReadRecord f).ok = false ∧
    (RecordReader.ReadRecord f).buffer = none ∧
    (RecordReader.ReadRecord f).after.rest = f.rest.drop 4 ∧
    (RecordReader.ReadRecord f).allocated = 0 := by
  rcases f with ⟨l, fl⟩
  simp only at hf h ⊢
  subst hf
  by_cases hlen : l.length < 4
  · have hr : Ifstream.read ⟨l, false⟩ 4 = (l, ⟨[], true⟩) :=
      read_short l 4 hlen
    have hd : l.drop 4 = [] := by
      apply List.drop_eq_nil_of_le
      omega
    simp [RecordReader.ReadRecord, hr, hd]
  · have hr : Ifstream.read ⟨l, false⟩ 4 = (l.take 4, ⟨l.drop 4, false⟩) := by
      simp [Ifstream.read, hlen]
    simp [RecordReader.ReadRecord, hr, h]

/-- Witness for C5: a five-byte stream of non-magic bytes. -/
theorem c5_sentinel_rejection_witness :
    (sourceOf [1, 2, 3, 4, 5]).failed = false ∧
    (sourceOf [1, 2, 3, 4, 5]).rest.take 4 ≠ RecordWriter.magicBytes ∧
    ((RecordReader.ReadRecord (sourceOf [1, 2, 3, 4, 5])).ok = false ∧
      (RecordReader.ReadRecord (sourceOf [1, 2, 3, 4, 5])).buffer = none ∧
      (RecordReader.ReadRecord (sourceOf [1, 2, 3, 4, 5])).after.rest =
        (sourceOf [1, 2, 3, 4, 5]).rest.drop 4 ∧
      (RecordReader.ReadRecord (sourceOf [1, 2, 3, 4, 5])).allocated = 0) :=
  ⟨rfl, by decide,
    c5_sentinel_rejection (sourceOf [1, 2, 3, 4, 5]) rfl (by decide)⟩

/-- C6: a stream with valid magic and a length field promising more payload
bytes than the stream holds makes ReadRecord fail, and the buffer allocated
for the attempt is released (one allocation, one release, none returned). -/
theorem c6_truncated_payload (len : Nat) (q : List Nat)
    (hlen : len < 2 ^ 64) (hq : q.length < len) :
    RecordReader.ReadRecord
        ⟨RecordWriter.magicBytes ++ RecordWriter.sizeTBytes len ++ q,
          false⟩ =
      ⟨false, none, ⟨[], true⟩, 1, 1⟩ := by
  have e1 : RecordWriter.magicBytes ++ RecordWriter.sizeTBytes len ++ q =
      RecordWriter.magicBytes ++ (RecordWriter.sizeTBytes len ++ q) := by
    rw [List.append_assoc]
  rw [e1]
  have r1 := read_exact RecordWriter.magicBytes
    (RecordWriter.sizeTBytes len ++ q) 4 rfl
  have r2 := read_exact (RecordWriter.sizeTBytes len) q 8
    (length_natToBytesLE _ _)
  have r3 : Ifstream.read ⟨q, false⟩ len = (q, ⟨[], true⟩) :=
    read_short q len hq
  simp [RecordReader.ReadRecord, r1, r2, decode_sizeTBytes hlen, r3]

/-- Witness for C6: a frame declaring 5 payload bytes but holding 2. -/
theorem c6_truncated_payload_witness :
    (5 : Nat) < 2 ^ 64 ∧ ([1, 2] : List Nat).length < 5 ∧
    RecordReader.ReadRecord
        ⟨RecordWriter.magicBytes ++ RecordWriter.sizeTBytes 5 ++ [1, 2],
          false⟩ =
      ⟨false, none, ⟨[], true⟩, 1, 1⟩ :=
  ⟨by decide, by decide, c6_truncated_payload 5 [1, 2] (by decide) (by decide)⟩

end file

namespace file

theorem frame_take_magic (p : List Nat) :
    (frame p).take 4 = RecordWriter.magicBytes := by
  rw [frame, List.append_assoc]
  exact List.take_left' rfl

theorem frame_take_magic_length (p : List Nat) :
    (frame p).take 12 =
      RecordWriter.magicBytes ++ RecordWriter.sizeTBytes p.length := by
  rw [frame]
  refine List.take_left' ?_
  simp [RecordWriter.magicBytes, RecordWriter.sizeTBytes, List.length_append,
    length_natToBytesLE]

/-- C7: WriteRecord reports failure exactly when the sink fails on one of
its three writes (magic, length, payload); nothing is rolled back, so the
sink ends with the old bytes followed by some prefix of the frame. -/
theorem c7_write_failure_iff_sink_failure (b : List Nat) (c : Nat)
    (o : Nat → Bool) (p : List Nat) :
    ((RecordWriter.WriteRecord ⟨b, false, o, c⟩ p).1 = false ↔
      (o c = false ∨ o (c + 1) = false ∨ o (c + 2) = false)) ∧
    ∃ k, (RecordWriter.WriteRecord ⟨b, false, o, c⟩ p).2.bytes =
      b ++ (frame p).take k := by
  by_cases h1 : o c
  · by_cases h2 : o (c + 1)
    · by_cases h3 : o (c + 2)
      · refine ⟨by simp [RecordWriter.WriteRecord, Ofstream.write, h1, h2, h3],
          (frame p).length, ?_⟩
        simp [RecordWriter.WriteRecord, Ofstream.write, h1, h2, h3,
          List.take_length, frame, List.append_assoc]
      · refine ⟨by simp [RecordWriter.WriteRecord, Ofstream.write, h1, h2, h3],
          12, ?_⟩
        rw [frame_take_magic_length]
        simp [RecordWriter.WriteRecord, Ofstream.write, h1, h2, h3,
          List.append_assoc]
    · refine ⟨by simp [RecordWriter.WriteRecord, Ofstream.write, h1, h2],
        4, ?_⟩
      rw [frame_take_magic]
      simp [RecordWriter.WriteRecord, Ofstream.write, h1, h2]
  · refine ⟨by simp [RecordWriter.WriteRecord, Ofstream.write, h1], 0, ?_⟩
    simp [RecordWriter.WriteRecord, Ofstream.write, h1]

theorem readRecord_buffer_none_of_fail (f : Ifstream)
    (h : (RecordReader.ReadRecord f).ok = false) :
    (RecordReader.ReadRecord f).buffer = none := by
  simp only [RecordReader.ReadRecord] at h ⊢
  split_ifs at h ⊢ <;> simp_all

/-- C8: whenever ReadRecord fails, the raw path returns the null buffer
pointer and the string path leaves the caller's string unchanged; a
payload appears only on success. -/
theorem c8_failure_produces_no_output (f : Ifstream) (data : List Nat)
    (h : (RecordReader.ReadRecord f).ok = false) :
    (RecordReader.ReadRecord f).buffer = none ∧
    RecordReader.ReadRecordString f data =
      (false, data, (RecordReader.ReadRecord f).after) := by
  have hb := readRecord_buffer_none_of_fail f h
  refine ⟨hb, ?_⟩
  simp [RecordReader.ReadRecordString, hb]

/-- Witness for C8 on the empty stream. -/
theorem c8_failure_produces_no_output_witness :
    (RecordReader.ReadRecord (sourceOf [])).ok = false ∧
    ((RecordReader.ReadRecord (sourceOf [])).buffer = none ∧
      RecordReader.ReadRecordString (sourceOf []) [7, 7] =
        (false, [7, 7], (RecordReader.ReadRecord (sourceOf [])).after)) :=
  ⟨by decide,
    c8_failure_produces_no_output (sourceOf []) [7, 7] (by decide)⟩

/-- C10: on streams with a clear fail bit, Close returns true exactly when
closing the underlying file fails — the opposite polarity of WriteRecord,
which returns true on success. -/
theorem c10_close_polarity (wf : Ofstream) (rf : Ifstream)
    (ok1 ok2 : Bool) (p : List Nat)
    (hw : wf.failed = false) (hr : rf.failed = false) :
    ((RecordWriter.Close wf ok1).1 = true ↔ ok1 = false) ∧
    ((RecordReader.Close rf ok2).1 = true ↔ ok2 = false) ∧
    (RecordWriter.WriteRecord freshSink p).1 = true := by
  refine ⟨?_, ?_, ?_⟩
  · cases ok1 <;> simp [RecordWriter.Close, Ofstream.close, hw]
  · cases ok2 <;> simp [RecordReader.Close, Ifstream.close, hr]
  · have hg := writeRecord_good [] 0 p
    simp [freshSink, hg]

/-- Witness for C10: failing writer close, succeeding reader close, and a
one-byte record write. -/
theorem c10_close_polarity_witness :
    freshSink.failed = false ∧ (sourceOf []).failed = false ∧
    (((RecordWriter.Close freshSink false).1 = true ↔ (false : Bool) = false) ∧
      ((RecordReader.Close (sourceOf []) true).1 = true ↔ (true : Bool) = false) ∧
      (RecordWriter.WriteRecord freshSink [65]).1 = true) :=
  ⟨rfl, rfl,
    c10_close_polarity freshSink (sourceOf []) false true [65] rfl rfl⟩

end file
